import Mathlib

/-!
Verification development for the cbdb repository (Calibre book database
web backend).  Each source function relevant to the frozen claims is given
a shallow embedding: pure Python string/byte manipulations become Lean
functions on `List Char` / `List Nat`, filesystem and network effects
become explicit state passing, and the SQL queries of `db.py` are embedded
by their relational semantics over list-backed tables.
-/

namespace Cbdb

/-! ## Generic string machinery

`strOccurs p s` is Python's substring test `p in s`, scanning `s` left to
right and checking at every position whether `p` is a prefix of the rest.
-/

def strOccurs (p : List Char) : List Char → Bool
  | [] => p.isEmpty
  | c :: cs => p.isPrefixOf (c :: cs) || strOccurs p cs

theorem strOccurs_eq_true_iff {p s : List Char} : strOccurs p s = true ↔ p <:+: s := by
  induction s with
  | nil =>
    simp only [strOccurs, List.isEmpty_iff]
    constructor
    · rintro rfl; exact List.infix_refl _
    · intro h; exact List.eq_nil_of_infix_nil h
  | cons c cs ih =>
    simp only [strOccurs, Bool.or_eq_true, ih, List.infix_cons_iff]
    constructor
    · rintro (h | h)
      · exact Or.inl (by simpa using h)
      · exact Or.inr h
    · rintro (h | h)
      · exact Or.inl (by simpa using h)
      · exact Or.inr h

theorem strOccurs_of_suffix {p s t : List Char} (hs : strOccurs p t = true)
    (h : t <:+ s) : strOccurs p s = true := by
  rw [strOccurs_eq_true_iff] at hs ⊢
  exact hs.trans h.isInfix

/-- Appending on the right preserves occurrence. -/
theorem strOccurs_append_left {p s t : List Char} (h : strOccurs p s = true) :
    strOccurs p (s ++ t) = true := by
  rw [strOccurs_eq_true_iff] at h ⊢
  exact h.trans (List.prefix_append s t).isInfix

theorem strOccurs_append_right {p s t : List Char} (h : strOccurs p t = true) :
    strOccurs p (s ++ t) = true :=
  strOccurs_of_suffix h (List.suffix_append s t)

/-- A pattern avoiding a separator character cannot straddle it: a prefix test
against `u ++ c :: w` with `c ∉ p` succeeds only if it succeeds against `u`
alone. -/
theorem prefixOf_append_sep {p u w : List Char} {c : Char} (hc : c ∉ p) :
    p.isPrefixOf (u ++ c :: w) = p.isPrefixOf u := by
  induction p generalizing u with
  | nil => simp [List.isPrefixOf]
  | cons q p' ih =>
    cases u with
    | nil =>
      simp only [List.nil_append, List.isPrefixOf]
      have : (q == c) = false := by
        simp only [beq_eq_false_iff_ne]
        intro h; exact hc (h ▸ List.mem_cons_self q p')
      simp [this]
    | cons a u' =>
      simp only [List.cons_append, List.isPrefixOf, List.append_eq]
      have := ih (u := u') (fun h => hc (List.mem_cons_of_mem q h))
      rw [this]

/-- Occurrence splits at a separator character not belonging to the pattern. -/
theorem strOccurs_append_sep {p u w : List Char} {c : Char} (hc : c ∈ p → False) :
    strOccurs p (u ++ c :: w) = (strOccurs p u || strOccurs p (c :: w)) := by
  induction u with
  | nil =>
    cases hp : p.isEmpty
    · simp [strOccurs, hp]
    · simp [strOccurs, hp]
      have : p = [] := List.isEmpty_iff.mp hp
      subst this
      simp [List.isPrefixOf]
  | cons a u' ih =>
    have h1 : strOccurs p ((a :: u') ++ c :: w)
        = (p.isPrefixOf ((a :: u') ++ c :: w) || strOccurs p (u' ++ c :: w)) := rfl
    have h2 : strOccurs p (a :: u') = (p.isPrefixOf (a :: u') || strOccurs p u') := rfl
    rw [h1, h2, prefixOf_append_sep hc, ih, Bool.or_assoc]

/-! ## DropboxSync (src/dropbox_sync.py)

### `_get_download_url` (lines 54–67)

`self.shared_link` is set once in `__init__` and never reassigned; the
rewrite below is the body of `_get_download_url`, a pure function of that
stored string.  Python's `url.replace('dl=0', 'dl=1')` replaces every
non-overlapping occurrence left to right; `'x' in url` is `strOccurs`.
-/

def dl0Pat : List Char := ['d', 'l', '=', '0']

def dl1Pat : List Char := ['d', 'l', '=', '1']

def dlEqPat : List Char := ['d', 'l', '=']

/-- Python `url.replace('dl=0', 'dl=1')`: leftmost-first, non-overlapping. -/
def replaceDl0 : List Char → List Char
  | [] => []
  | c :: rest =>
    if dl0Pat.isPrefixOf (c :: rest) then
      dl1Pat ++ replaceDl0 ((c :: rest).drop 4)
    else c :: replaceDl0 rest
termination_by l => l.length
decreasing_by
  · simp only [List.length_drop, List.length_cons]; omega
  · simp

/-- Body of `DropboxSync._get_download_url` (the `if`/`elif` chain on the
stored shared link). -/
def getDownloadUrl (url : List Char) : List Char :=
  if strOccurs dl0Pat url then replaceDl0 url
  else if url.contains '?' && !strOccurs dlEqPat url then url ++ ('&' :: dl1Pat)
  else if !url.contains '?' then url ++ ('?' :: dl1Pat)
  else url

theorem contains_qm_iff {url : List Char} : url.contains '?' = true ↔ '?' ∈ url := by
  simp [List.contains]

theorem contains_qm_false_iff {url : List Char} :
    url.contains '?' = false ↔ '?' ∉ url := by
  rw [← contains_qm_iff]
  cases url.contains '?' <;> simp

theorem replaceDl0_nil : replaceDl0 [] = [] := by
  simp [replaceDl0]

theorem replaceDl0_cons_ne {c : Char} (v : List Char) (h : c ≠ 'd') :
    replaceDl0 (c :: v) = c :: replaceDl0 v := by
  rw [replaceDl0]
  have : dl0Pat.isPrefixOf (c :: v) = false := by
    cases hp : dl0Pat.isPrefixOf (c :: v)
    · rfl
    · exfalso
      have hp' : dl0Pat <+: c :: v := by simpa using hp
      simp only [dl0Pat] at hp'
      exact h (List.cons_prefix_cons.mp hp').1.symm
  simp [this]

theorem replaceDl0_cons_hit {v : List Char} (h : dl0Pat.isPrefixOf v = true) :
    ∃ t, v = 'd' :: 'l' :: '=' :: '0' :: t ∧ replaceDl0 v = 'd' :: 'l' :: '=' :: '1' :: replaceDl0 t := by
  have hp : dl0Pat <+: v := by simpa using h
  obtain ⟨t, ht⟩ := hp
  refine ⟨t, ht.symm, ?_⟩
  subst ht
  show replaceDl0 ('d' :: 'l' :: '=' :: '0' :: t) = _
  rw [replaceDl0]
  have : dl0Pat.isPrefixOf ('d' :: 'l' :: '=' :: '0' :: t) = true := by
    simp only [List.isPrefixOf_iff_prefix]
    exact ⟨t, rfl⟩
  simp [this, dl1Pat]

theorem replaceDl0_head? (v : List Char) : (replaceDl0 v).head? = v.head? := by
  cases v with
  | nil => simp [replaceDl0]
  | cons c rest =>
    by_cases h : dl0Pat.isPrefixOf (c :: rest) = true
    · obtain ⟨t, hv, hr⟩ := replaceDl0_cons_hit h
      rw [hr]
      cases hv; rfl
    · rw [replaceDl0, if_neg h]
      rfl

/-- A singleton list is a prefix exactly when it is the head. -/
theorem singleton_prefix_iff {a : Char} {l : List Char} : [a] <+: l ↔ l.head? = some a := by
  cases l with
  | nil => simp
  | cons b t => simp [List.cons_prefix_cons, eq_comm]

/-- If `"l=0"` survives as a prefix of the replaced string, it was already a
prefix of the original: replacement segments all start with `'d'`. -/
theorem replaceDl0_pres_tail3 (v : List Char) (h : ['l', '=', '0'] <+: replaceDl0 v) :
    ['l', '=', '0'] <+: v := by
  cases v with
  | nil => rw [replaceDl0_nil] at h; simp at h
  | cons c r =>
    by_cases hc : c = 'd'
    · exfalso
      have hh : (replaceDl0 (c :: r)).head? = some 'd' := by
        rw [replaceDl0_head?, hc]; rfl
      obtain ⟨t, ht⟩ := h
      rw [← ht] at hh
      simp at hh
    · rw [replaceDl0_cons_ne r hc] at h
      obtain ⟨hcl, h2⟩ := List.cons_prefix_cons.mp h
      subst hcl
      cases r with
      | nil => rw [replaceDl0_nil] at h2; simp at h2
      | cons x r2 =>
        by_cases hx : x = 'd'
        · exfalso
          have hh : (replaceDl0 (x :: r2)).head? = some 'd' := by
            rw [replaceDl0_head?, hx]; rfl
          obtain ⟨t, ht⟩ := h2
          rw [← ht] at hh
          simp at hh
        · rw [replaceDl0_cons_ne r2 hx] at h2
          obtain ⟨hxe, h3⟩ := List.cons_prefix_cons.mp h2
          subst hxe
          cases r2 with
          | nil => rw [replaceDl0_nil] at h3; simp at h3
          | cons y r3 =>
            by_cases hy : y = 'd'
            · exfalso
              have hh : (replaceDl0 (y :: r3)).head? = some 'd' := by
                rw [replaceDl0_head?, hy]; rfl
              obtain ⟨t, ht⟩ := h3
              rw [← ht] at hh
              simp at hh
            · rw [replaceDl0_cons_ne r3 hy] at h3
              have hy0 := (List.cons_prefix_cons.mp h3).1
              subst hy0
              exact ⟨r3, rfl⟩

/-- Replacing `"dl=0"` with `"dl=1"` leaves no occurrence of `"dl=0"`. -/
theorem replaceDl0_no_dl0 (v : List Char) : strOccurs dl0Pat (replaceDl0 v) = false := by
  induction v using replaceDl0.induct with
  | case1 => rw [replaceDl0_nil]; rfl
  | case2 c rest hpre ih =>
    obtain ⟨t, hv, hr⟩ := replaceDl0_cons_hit hpre
    have ht : (c :: rest).drop 4 = t := by rw [hv]; rfl
    rw [ht] at ih
    rw [hr]
    have hchain : ∀ z : List Char, strOccurs dl0Pat z = false →
        strOccurs dl0Pat ('d' :: 'l' :: '=' :: '1' :: z) = false := by
      intro z hz
      show (dl0Pat.isPrefixOf ('d' :: 'l' :: '=' :: '1' :: z) ||
        strOccurs dl0Pat ('l' :: '=' :: '1' :: z)) = false
      have h1 : dl0Pat.isPrefixOf ('d' :: 'l' :: '=' :: '1' :: z) = false := by
        simp [dl0Pat, List.isPrefixOf]
      rw [h1]
      show (false || (dl0Pat.isPrefixOf ('l' :: '=' :: '1' :: z) ||
        strOccurs dl0Pat ('=' :: '1' :: z))) = false
      have h2 : dl0Pat.isPrefixOf ('l' :: '=' :: '1' :: z) = false := by
        simp [dl0Pat, List.isPrefixOf]
      rw [h2]
      show (false || (false || (dl0Pat.isPrefixOf ('=' :: '1' :: z) ||
        strOccurs dl0Pat ('1' :: z)))) = false
      have h3 : dl0Pat.isPrefixOf ('=' :: '1' :: z) = false := by
        simp [dl0Pat, List.isPrefixOf]
      rw [h3]
      show (false || (false || (false || (dl0Pat.isPrefixOf ('1' :: z) ||
        strOccurs dl0Pat z)))) = false
      have h4 : dl0Pat.isPrefixOf ('1' :: z) = false := by
        simp [dl0Pat, List.isPrefixOf]
      rw [h4, hz]
      rfl
    exact hchain _ ih
  | case3 c rest hpre ih =>
    rw [replaceDl0, if_neg hpre]
    show (dl0Pat.isPrefixOf (c :: replaceDl0 rest) || strOccurs dl0Pat (replaceDl0 rest)) = false
    rw [ih]
    have : dl0Pat.isPrefixOf (c :: replaceDl0 rest) = false := by
      cases hp : dl0Pat.isPrefixOf (c :: replaceDl0 rest)
      · rfl
      · exfalso
        have hp' : dl0Pat <+: c :: replaceDl0 rest := by simpa using hp
        obtain ⟨hcd, htail⟩ := List.cons_prefix_cons.mp hp'
        have := replaceDl0_pres_tail3 rest htail
        have : dl0Pat <+: c :: rest := by
          rw [← hcd] at *
          exact List.cons_prefix_cons.mpr ⟨rfl, this⟩
        rw [show dl0Pat.isPrefixOf (c :: rest) = true by simpa using this] at hpre
        simp at hpre
    rw [this]
    rfl

/-- The replacement marks its work: if `"dl=0"` occurred, `"dl=1"` occurs in
the output. -/
theorem replaceDl0_has_dl1 (v : List Char) (h : strOccurs dl0Pat v = true) :
    strOccurs dl1Pat (replaceDl0 v) = true := by
  induction v using replaceDl0.induct with
  | case1 => simp [strOccurs, dl0Pat] at h
  | case2 c rest hpre ih =>
    obtain ⟨t, hv, hr⟩ := replaceDl0_cons_hit hpre
    rw [hr]
    have : dl1Pat <+: 'd' :: 'l' :: '=' :: '1' :: replaceDl0 t := ⟨replaceDl0 t, rfl⟩
    rw [strOccurs_eq_true_iff]
    exact this.isInfix
  | case3 c rest hpre ih =>
    have hrest : strOccurs dl0Pat rest = true := by
      have hsplit : strOccurs dl0Pat (c :: rest)
          = (dl0Pat.isPrefixOf (c :: rest) || strOccurs dl0Pat rest) := rfl
      have hpre' : dl0Pat.isPrefixOf (c :: rest) = false := by
        cases hb : dl0Pat.isPrefixOf (c :: rest)
        · rfl
        · exact absurd hb hpre
      rw [hsplit, hpre'] at h
      simpa using h
    rw [replaceDl0, if_neg hpre]
    have := ih hrest
    show (dl1Pat.isPrefixOf (c :: replaceDl0 rest) || strOccurs dl1Pat (replaceDl0 rest)) = true
    rw [this]
    simp

/-- Characters untouched by the rewrite survive it; in particular `'?'`. -/
theorem replaceDl0_mem_qm (v : List Char) (h : '?' ∈ v) : '?' ∈ replaceDl0 v := by
  induction v using replaceDl0.induct with
  | case1 => simp at h
  | case2 c rest hpre ih =>
    obtain ⟨t, hv, hr⟩ := replaceDl0_cons_hit hpre
    have ht : (c :: rest).drop 4 = t := by rw [hv]; rfl
    rw [ht] at ih
    rw [hr]
    have hmem : '?' ∈ t := by
      rw [hv] at h
      simp only [List.mem_cons] at h
      rcases h with h | h | h | h | h
      all_goals first
        | (exact absurd h.symm (by decide))
        | exact h
    have := ih hmem
    simp [this]
  | case3 c rest hpre ih =>
    rw [replaceDl0, if_neg hpre]
    simp only [List.mem_cons] at h ⊢
    rcases h with h | h
    · exact Or.inl h
    · exact Or.inr (ih h)

/-- Occurrence is antitone in the pattern: a prefix of an occurring pattern
occurs as well. -/
theorem strOccurs_mono {p q s : List Char} (hpq : p <+: q) (h : strOccurs q s = true) :
    strOccurs p s = true := by
  rw [strOccurs_eq_true_iff] at h ⊢
  exact hpq.isInfix.trans h

/-! ### `needs_sync` (lines 89–116) and `get_remote_last_modified` (69–87)

The filesystem facts (`os.path.exists`, `os.path.getsize`,
`os.path.getmtime`) and the outcome of the remote `HEAD` request are the
inputs; `needs_sync` is a pure decision over them.  A parsed `Last-Modified`
datetime is modelled by its wall-clock value together with whether it
carried timezone info; `replace(tzinfo=None)` keeps the wall-clock fields.
-/

structure RemoteInstant where
  wall : Int
  hasTz : Bool
  deriving DecidableEq, Repr

/-- `remote_modified.replace(tzinfo=None)` when a timezone is attached. -/
def stripTz (t : RemoteInstant) : RemoteInstant :=
  if t.hasTz then { wall := t.wall, hasTz := false } else t

structure SyncEnv where
  localExists : Bool
  localSize : Nat
  localMtime : Int
  /-- result of `get_remote_last_modified()`: `none` both when the header is
  missing and when the request failed (the `except` branch returns `None`). -/
  remoteLastModified : Option RemoteInstant

def needs_sync (env : SyncEnv) : Bool :=
  if !env.localExists then true
  else if env.localSize == 0 then true
  else
    match env.remoteLastModified with
    | none => true
    | some r => decide ((stripTz r).wall > env.localMtime)

/-! ### `sync` (lines 118–171)

The downloaded body is a byte sequence; the local filesystem is a map from
path to byte content.  `sync` validates the body, then writes
`metadata.db.tmp` and atomically renames it over `metadata.db`
(`os.replace`).  The returned trace lists every filesystem state the
operation passes through, in order.
-/

def FileSys : Type := String → Option (List Nat)

def fsWrite (fs : FileSys) (p : String) (v : List Nat) : FileSys :=
  fun q => if q = p then some v else fs q

/-- `os.replace src dst`: `dst` receives `src`'s content, `src` disappears. -/
def fsReplace (fs : FileSys) (src dst : String) : FileSys :=
  fun q => if q = dst then fs src else if q = src then none else fs q

def SQLITE_SIG : List Nat :=
  [83, 81, 76, 105, 116, 101, 32, 102, 111, 114, 109, 97, 116, 32, 51, 0]

def ZIP_SIGNATURE : List Nat := [80, 75, 3, 4]

def localDbPath : String := "metadata.db"

def tmpDbPath : String := "metadata.db.tmp"

/-- `DropboxSync.sync` after a successful download of `content`; the result
pairs the Python outcome (`True` or a raised exception message) with the
trace of filesystem states. -/
def sync (content : List Nat) (fs : FileSys) : Except String Unit × List FileSys :=
  if content.length < 100 then
    (Except.error "Downloaded file is unexpectedly small and may be invalid.", [fs])
  else if !SQLITE_SIG.isPrefixOf content then
    if ZIP_SIGNATURE.isPrefixOf content then
      (Except.error "Downloaded file is a ZIP archive, not a SQLite database.", [fs])
    else
      (Except.error "Downloaded file does not appear to be a valid SQLite database.", [fs])
  else
    let fs1 := fsWrite fs tmpDbPath content
    let fs2 := fsReplace fs1 tmpDbPath localDbPath
    (Except.ok (), [fs, fs1, fs2])

/-- The query-string part of a URL: everything after the first `'?'`. -/
def queryPart (u : List Char) : List Char :=
  (u.dropWhile (fun c => !(c == '?'))).drop 1

/-- Example filesystem and database contents used to instantiate the sync
claims. -/
def fsEmpty : FileSys := fun _ => none

def goodDb : List Nat := SQLITE_SIG ++ List.replicate 84 0

def badDb : List Nat := [80, 75, 3, 4]

/-! ## Claim theorems for the DropboxSync component -/

/-- **C3**: `needs_sync()` returns true iff the local `metadata.db` is
absent, or has size zero, or the remote last-modified timestamp could not
be determined, or the remote timestamp (timezone stripped) strictly
exceeds the local modification time; equivalently it returns false exactly
when the local file exists, is non-empty, and the remote timestamp is
available and not strictly newer. -/
theorem needs_sync_iff (env : SyncEnv) :
    needs_sync env = true ↔
      (env.localExists = false ∨ env.localSize = 0 ∨ env.remoteLastModified = none ∨
        ∃ r, env.remoteLastModified = some r ∧ (stripTz r).wall > env.localMtime) := by
  rcases env with ⟨le, ls, lm, rm⟩
  cases le <;> cases rm <;> by_cases hls : ls = 0 <;>
    simp_all [needs_sync]

/-- **C1**: if the downloaded bytes do not start with the 16-byte SQLite
signature, `sync()` faults and the filesystem passes through no state other
than the initial one (so the previously-synced `metadata.db`, if any, is
byte-for-byte unchanged, and the validation failure precedes any write);
on success the trace is exactly: initial state, temp file fully written
(target untouched), then the atomic `os.replace` of the temp file onto the
target, and in every state of the trace the target holds either its
original content or the complete new content. -/
theorem sync_validation_and_atomic_replace (content : List Nat) (fs : FileSys) :
    (SQLITE_SIG.isPrefixOf content = false →
      (∃ e, (sync content fs).1 = Except.error e) ∧ (sync content fs).2 = [fs]) ∧
    ((sync content fs).1 = Except.ok () →
      (sync content fs).2 =
        [fs, fsWrite fs tmpDbPath content,
          fsReplace (fsWrite fs tmpDbPath content) tmpDbPath localDbPath] ∧
      fsWrite fs tmpDbPath content localDbPath = fs localDbPath ∧
      fsWrite fs tmpDbPath content tmpDbPath = some content ∧
      fsReplace (fsWrite fs tmpDbPath content) tmpDbPath localDbPath localDbPath
        = some content ∧
      ∀ s ∈ (sync content fs).2,
        s localDbPath = fs localDbPath ∨ s localDbPath = some content) := by
  constructor
  · intro h
    by_cases hlen : content.length < 100
    · unfold sync
      rw [if_pos hlen]
      exact ⟨⟨_, rfl⟩, rfl⟩
    · unfold sync
      rw [if_neg hlen, if_pos (by simp [h])]
      by_cases hz : ZIP_SIGNATURE.isPrefixOf content = true
      · rw [if_pos hz]
        exact ⟨⟨_, rfl⟩, rfl⟩
      · rw [if_neg hz]
        exact ⟨⟨_, rfl⟩, rfl⟩
  · intro h
    by_cases hlen : content.length < 100
    · exfalso
      unfold sync at h
      rw [if_pos hlen] at h
      cases h
    · by_cases hsig : SQLITE_SIG.isPrefixOf content = true
      · have htrace : (sync content fs).2 =
            [fs, fsWrite fs tmpDbPath content,
              fsReplace (fsWrite fs tmpDbPath content) tmpDbPath localDbPath] := by
          unfold sync
          rw [if_neg hlen, if_neg (by simp [hsig])]
        have hw1 : fsWrite fs tmpDbPath content localDbPath = fs localDbPath := by
          show (if localDbPath = tmpDbPath then some content else fs localDbPath)
            = fs localDbPath
          rw [if_neg (by decide)]
        have hw2 : fsWrite fs tmpDbPath content tmpDbPath = some content := by
          show (if tmpDbPath = tmpDbPath then some content else fs tmpDbPath)
            = some content
          rw [if_pos rfl]
        have hw3 : fsReplace (fsWrite fs tmpDbPath content) tmpDbPath localDbPath
            localDbPath = some content := by
          show (if localDbPath = localDbPath then fsWrite fs tmpDbPath content tmpDbPath
            else if localDbPath = tmpDbPath then none
            else fsWrite fs tmpDbPath content localDbPath) = some content
          rw [if_pos rfl, hw2]
        refine ⟨htrace, hw1, hw2, hw3, ?_⟩
        intro s hs
        rw [htrace] at hs
        simp only [List.mem_cons, List.not_mem_nil, or_false] at hs
        rcases hs with rfl | rfl | rfl
        · exact Or.inl rfl
        · exact Or.inl hw1
        · exact Or.inr hw3
      · exfalso
        unfold sync at h
        rw [if_neg hlen, if_pos (by simp [hsig])] at h
        by_cases hz : ZIP_SIGNATURE.isPrefixOf content = true
        · rw [if_pos hz] at h; cases h
        · rw [if_neg hz] at h; cases h

/-- Witness for **C1**: a short ZIP-signature download faults and leaves
the (empty) filesystem untouched; a valid 100-byte SQLite image produces
exactly the write-temp-then-rename trace with the target atomic. -/
theorem sync_validation_witness :
    ((∃ e, (sync badDb fsEmpty).1 = Except.error e) ∧ (sync badDb fsEmpty).2 = [fsEmpty]) ∧
    ((sync goodDb fsEmpty).2 =
        [fsEmpty, fsWrite fsEmpty tmpDbPath goodDb,
          fsReplace (fsWrite fsEmpty tmpDbPath goodDb) tmpDbPath localDbPath] ∧
      fsWrite fsEmpty tmpDbPath goodDb localDbPath = fsEmpty localDbPath ∧
      fsWrite fsEmpty tmpDbPath goodDb tmpDbPath = some goodDb ∧
      fsReplace (fsWrite fsEmpty tmpDbPath goodDb) tmpDbPath localDbPath localDbPath
        = some goodDb ∧
      ∀ s ∈ (sync goodDb fsEmpty).2,
        s localDbPath = fsEmpty localDbPath ∨ s localDbPath = some goodDb) :=
  ⟨(sync_validation_and_atomic_replace badDb fsEmpty).1 (by decide),
   (sync_validation_and_atomic_replace goodDb fsEmpty).2 (by rfl)⟩

/-- **C9** (amended): `_get_download_url` is a pure function of the stored
shared link (which `__init__` fixes once and nothing mutates).  (i) It is
idempotent on every link that contains `'?'` or does not contain the
substring `"dl=0"`.  (ii) The result contains `"dl=1"` for every link that
contains `"dl=0"` or lacks the substring `"dl="` anywhere in the URL. -/
theorem getDownloadUrl_props (url : List Char) :
    ((url.contains '?' = true ∨ strOccurs dl0Pat url = false) →
      getDownloadUrl (getDownloadUrl url) = getDownloadUrl url) ∧
    ((strOccurs dl0Pat url = true ∨ strOccurs dlEqPat url = false) →
      strOccurs dl1Pat (getDownloadUrl url) = true) := by
  constructor
  · intro h
    by_cases h0 : strOccurs dl0Pat url = true
    · have hq : url.contains '?' = true := by
        rcases h with h | h
        · exact h
        · rw [h0] at h; cases h
      have hg : getDownloadUrl url = replaceDl0 url := by
        rw [getDownloadUrl, if_pos h0]
      rw [hg]
      have h1 : strOccurs dl0Pat (replaceDl0 url) = false := replaceDl0_no_dl0 url
      have h2 : strOccurs dlEqPat (replaceDl0 url) = true :=
        strOccurs_mono ⟨['1'], rfl⟩ (replaceDl0_has_dl1 url h0)
      have h3 : '?' ∈ replaceDl0 url := replaceDl0_mem_qm url (contains_qm_iff.mp hq)
      rw [getDownloadUrl, if_neg (by simp [h1]), if_neg (by simp [h2]),
        if_neg (by simp [h3])]
    · have h0' : strOccurs dl0Pat url = false := by
        cases hb : strOccurs dl0Pat url
        · rfl
        · exact absurd hb h0
      by_cases hq : url.contains '?' = true
      · have hqm : '?' ∈ url := contains_qm_iff.mp hq
        by_cases hdl : strOccurs dlEqPat url = true
        · have hg : getDownloadUrl url = url := by
            rw [getDownloadUrl, if_neg (by simp [h0']), if_neg (by simp [hdl]),
              if_neg (by simp [hqm])]
          rw [hg, hg]
        · have hdl' : strOccurs dlEqPat url = false := by
            cases hb : strOccurs dlEqPat url
            · rfl
            · exact absurd hb hdl
          have hg : getDownloadUrl url = url ++ '&' :: dl1Pat := by
            rw [getDownloadUrl, if_neg (by simp [h0']), if_pos (by simp [hqm, hdl'])]
          rw [hg]
          have c1 : strOccurs dl0Pat (url ++ '&' :: dl1Pat) = false := by
            rw [strOccurs_append_sep (by decide), h0']
            decide
          have c2 : strOccurs dlEqPat (url ++ '&' :: dl1Pat) = true :=
            strOccurs_append_right (by decide)
          have c3 : '?' ∈ url ++ '&' :: dl1Pat := List.mem_append_left _ hqm
          rw [getDownloadUrl, if_neg (by simp [c1]), if_neg (by simp [c2]),
            if_neg (by simp [c3])]
      · have hq' : '?' ∉ url := by
          apply contains_qm_false_iff.mp
          cases hb : url.contains '?'
          · rfl
          · exact absurd hb hq
        have hg : getDownloadUrl url = url ++ '?' :: dl1Pat := by
          rw [getDownloadUrl, if_neg (by simp [h0']), if_neg (by simp [hq']),
            if_pos (by simp [hq'])]
        rw [hg]
        have c1 : strOccurs dl0Pat (url ++ '?' :: dl1Pat) = false := by
          rw [strOccurs_append_sep (by decide), h0']
          decide
        have c2 : strOccurs dlEqPat (url ++ '?' :: dl1Pat) = true :=
          strOccurs_append_right (by decide)
        have c3 : '?' ∈ url ++ '?' :: dl1Pat :=
          List.mem_append_right _ (List.mem_cons_self _ _)
        rw [getDownloadUrl, if_neg (by simp [c1]), if_neg (by simp [c2]),
          if_neg (by simp [c3])]
  · intro h
    by_cases h0 : strOccurs dl0Pat url = true
    · rw [getDownloadUrl, if_pos h0]
      exact replaceDl0_has_dl1 url h0
    · have h0' : strOccurs dl0Pat url = false := by
        cases hb : strOccurs dl0Pat url
        · rfl
        · exact absurd hb h0
      have hdl : strOccurs dlEqPat url = false := by
        rcases h with h | h
        · exact absurd h h0
        · exact h
      by_cases hq : url.contains '?' = true
      · have hqm : '?' ∈ url := contains_qm_iff.mp hq
        rw [getDownloadUrl, if_neg (by simp [h0']), if_pos (by simp [hqm, hdl])]
        exact strOccurs_append_right (by decide)
      · have hq' : '?' ∉ url := by
          apply contains_qm_false_iff.mp
          cases hb : url.contains '?'
          · rfl
          · exact absurd hb hq
        rw [getDownloadUrl, if_neg (by simp [h0']), if_neg (by simp [hq']),
          if_pos (by simp [hq'])]
        exact strOccurs_append_right (by decide)

/-- Witness for **C9**: a realistic shared link carrying `dl=0` in its query
string is rewritten idempotently and the result contains `dl=1`. -/
theorem getDownloadUrl_props_witness :
    (getDownloadUrl (getDownloadUrl ("https://www.dropbox.com/scl/fi/abc/metadata.db?rlkey=r&dl=0".data))
      = getDownloadUrl ("https://www.dropbox.com/scl/fi/abc/metadata.db?rlkey=r&dl=0".data)) ∧
    strOccurs dl1Pat
      (getDownloadUrl ("https://www.dropbox.com/scl/fi/abc/metadata.db?rlkey=r&dl=0".data)) = true :=
  ⟨(getDownloadUrl_props _).1 (Or.inl (by decide)),
   (getDownloadUrl_props _).2 (Or.inl (by decide))⟩

/-- Counterexample for **C9** as stated.  First conjunct: on the link
`http://a.com/dl=0` (no `'?'`), one application yields `http://a.com/dl=1`
and a second application appends `?dl=1`, so the rewrite is not idempotent.
Remaining conjuncts: the link `http://a.com/dl=2xyz?x=1` has query string
`x=1`, which lacks any dl parameter, yet the rewritten URL does not contain
`dl=1` (the code tests the substring `dl=` over the whole URL, not the
query string). -/
theorem getDownloadUrl_claim_ce :
    getDownloadUrl (getDownloadUrl ("http://a.com/dl=0".data))
      ≠ getDownloadUrl ("http://a.com/dl=0".data) ∧
    queryPart ("http://a.com/dl=2xyz?x=1".data) = "x=1".data ∧
    strOccurs dlEqPat (queryPart ("http://a.com/dl=2xyz?x=1".data)) = false ∧
    strOccurs dl1Pat (getDownloadUrl ("http://a.com/dl=2xyz?x=1".data)) = false := by
  have e1 : getDownloadUrl ("http://a.com/dl=0".data) = "http://a.com/dl=1".data := by
    simp [getDownloadUrl, replaceDl0, dl0Pat, dl1Pat, dlEqPat, strOccurs, List.isPrefixOf]
  refine ⟨?_, by decide, by decide, by decide⟩
  rw [e1]
  decide

/-! ## LocalStorageAPI (src/local_storage_api.py)

`_resolve_path` (lines 29–43) normalizes `os.path.join(base_path, path)`
with `posixpath.normpath` and then checks `full_path.startswith(base_path)`.
The embedding below reproduces CPython's `posixpath` algorithms on
`List Char`.
-/

def dotdotComp : List Char := ['.', '.']

/-- Python `str.split('/')`: all fields kept, including empty ones. -/
def splitSlash : List Char → List (List Char)
  | [] => [[]]
  | '/' :: rest => [] :: splitSlash rest
  | c :: rest =>
    match splitSlash rest with
    | w :: ws => (c :: w) :: ws
    | [] => [[c]]

/-- Python `'/'.join(comps)`. -/
def joinSlash : List (List Char) → List Char
  | [] => []
  | [c] => c
  | c :: cs => c ++ '/' :: joinSlash cs

/-- `posixpath.normpath`'s leading-slash count: one slash, except exactly
two leading slashes are preserved as two. -/
def countInitialSlashes (p : List Char) : Nat :=
  if p.take 1 ≠ ['/'] then 0
  else if p.take 2 = ['/', '/'] ∧ p.take 3 ≠ ['/', '/', '/'] then 2
  else 1

/-- The component loop of `posixpath.normpath`; `acc` holds the output
components in reverse. -/
def normpathLoop (slashes : Nat) : List (List Char) → List (List Char) → List (List Char)
  | acc, [] => acc.reverse
  | acc, comp :: rest =>
    if comp = [] ∨ comp = ['.'] then normpathLoop slashes acc rest
    else if comp ≠ dotdotComp ∨ (slashes = 0 ∧ acc = []) ∨
        (acc ≠ [] ∧ acc.head? = some dotdotComp) then
      normpathLoop slashes (comp :: acc) rest
    else
      match acc with
      | [] => normpathLoop slashes [] rest
      | _ :: acc' => normpathLoop slashes acc' rest

/-- `posixpath.normpath`. -/
def normpath (p : List Char) : List Char :=
  let slashes := countInitialSlashes p
  let comps := normpathLoop slashes [] (splitSlash p)
  let out := List.replicate slashes '/' ++ joinSlash comps
  if out = [] then ['.'] else out

/-- `posixpath.join` for two arguments. -/
def pathJoin (a b : List Char) : List Char :=
  if b.take 1 = ['/'] then b
  else if a = [] ∨ a.getLast? = some '/' then a ++ b
  else a ++ '/' :: b

/-- Python `path.lstrip('/')`. -/
def lstripSlash (p : List Char) : List Char := p.dropWhile (fun c => c == '/')

/-- `LocalStorageAPI._resolve_path`: `base_path` is the absolute storage
root fixed in `__init__`; faults with the `ValueError` message on the
`startswith` check, otherwise returns the resolved path. -/
def resolve_path (base_path p : List Char) : Except (List Char) (List Char) :=
  let p' := lstripSlash p
  let full := normpath (pathJoin base_path p')
  if base_path.isPrefixOf full then Except.ok full
  else Except.error ("Path traversal attempt detected: ".data ++ p')

/-- Abstract local filesystem facts consulted by `download_file`. -/
structure LocalFS where
  pathExists : List Char → Bool
  isFile : List Char → Bool
  content : List Char → List Nat

/-- `LocalStorageAPI.download_file` (lines 94–113). -/
def local_download_file (lfs : LocalFS) (base_path p : List Char) :
    Except (List Char) (List Nat) :=
  match resolve_path base_path p with
  | Except.error e => Except.error e
  | Except.ok resolved =>
    if !lfs.pathExists resolved then Except.error ("File not found: ".data ++ p)
    else if !lfs.isFile resolved then Except.error ("Path is not a file: ".data ++ p)
    else Except.ok (lfs.content resolved)

/-- `p` lies inside the directory `base`: it is `base` itself or has
`base ++ "/"` as a prefix. -/
def insideDir (base p : List Char) : Bool :=
  p == base || (base ++ ['/']).isPrefixOf p

/-- A filesystem on which every path exists, is a file, and has content
`[1]`; used to show `download_file` still faults on a traversal path. -/
def lfsAll : LocalFS :=
  { pathExists := fun _ => true, isFile := fun _ => true, content := fun _ => [1] }

/-- **C2**: evidence for the path-containment bug.  First two conjuncts:
the claim's concrete instance holds — `"../../etc/passwd"` resolved
against root `"/app/test_data"` faults with the path-traversal
`ValueError`, and `download_file` propagates the fault without ever
reading content (even on a filesystem where everything is a readable
file).  Last two conjuncts, the failing input for the general claim: with
storage root `"/data/lib"`, the input `"../libx"` resolves to
`"/data/libx"` — a path *outside* the root — yet `_resolve_path` returns
it without fault, because `startswith(base_path)` is a string-prefix
check, not a directory-containment check. -/
theorem resolve_path_prefix_check_bug :
    (∃ e, resolve_path ("/app/test_data".data) ("../../etc/passwd".data) = Except.error e) ∧
    (∃ e, local_download_file lfsAll ("/app/test_data".data) ("../../etc/passwd".data)
      = Except.error e) ∧
    resolve_path ("/data/lib".data) ("../libx".data) = Except.ok ("/data/libx".data) ∧
    insideDir ("/data/lib".data) ("/data/libx".data) = false :=
  ⟨⟨_, rfl⟩, ⟨_, rfl⟩, rfl, by decide⟩

/-! ## DropboxAPI.validate_library_path (src/dropbox_api.py lines 139–192)

`get_metadata` returns a metadata dict, `None` for "path not found", or
raises on transport failure; `list_folder("")` returns the root entries or
raises.  These outcomes are the inputs of the validator, wired in below as
an abstract remote store.
-/

inductive Probe where
  | fault
  | absent
  | found (size : Nat)
  deriving DecidableEq, Repr

structure Remote where
  /-- outcome of `get_metadata(path)`. -/
  metadata : List Char → Probe
  /-- outcome of `list_folder("")`: the `(name, is-folder)` entries, or
  `none` when the call raises. -/
  listRoot : Option (List (List Char × Bool))

inductive VResult where
  | invalid (error : List Char)
  | valid (size : Nat)
  deriving DecidableEq, Repr

/-- Python `path.rstrip('/')`. -/
def rstripSlash (p : List Char) : List Char :=
  (p.reverse.dropWhile (fun c => c == '/')).reverse

/-- The validator's normalization: ensure one leading `/`, strip trailing
ones. -/
def normalizeLibPath (p : List Char) : List Char :=
  rstripSlash (if p.take 1 = ['/'] then p else '/' :: p)

/-- The suggestion scan: top-level folders whose `/<folder>/metadata.db`
probe succeeds; a fault while listing the root yields no suggestions, a
fault (or absence) while probing one folder skips that folder. -/
def suggestionsOf (r : Remote) : List (List Char) :=
  match r.listRoot with
  | none => []
  | some entries =>
    ((entries.filter (fun e => e.2)).map (fun e => e.1)).filterMap (fun f =>
      match r.metadata ('/' :: f ++ "/metadata.db".data) with
      | Probe.found _ => some ('/' :: f)
      | _ => none)

/-- Python `sep.join l`. -/
def sepJoin (sep : List Char) : List (List Char) → List Char
  | [] => []
  | [x] => x
  | x :: xs => x ++ sep ++ sepJoin sep xs

/-- The composed error message of the invalid branch. -/
def notFoundMsg (lp : List Char) (suggestions : List (List Char)) : List Char :=
  ("metadata.db not found at \x27".data ++ lp ++ "\x27".data) ++
    (if suggestions ≠ [] then
      "\n\nFound Calibre libraries at: ".data ++ sepJoin ", ".data suggestions
    else
      "\n\nMake sure the path points to your Calibre Library folder.".data)

/-- `DropboxAPI.validate_library_path`.  A transport fault on the *primary*
probe propagates (`Except.error`); in the absent case the suggestion scan
runs with all its faults swallowed. -/
def validate_library_path (r : Remote) (library_path : List Char) : Except Unit VResult :=
  let lp := normalizeLibPath library_path
  match r.metadata (lp ++ "/metadata.db".data) with
  | Probe.fault => Except.error ()
  | Probe.found sz => Except.ok (VResult.valid sz)
  | Probe.absent => Except.ok (VResult.invalid (notFoundMsg lp (suggestionsOf r)))

theorem sepJoin_cons₂ (sep x y : List Char) (ys : List (List Char)) :
    sepJoin sep (x :: y :: ys) = x ++ sep ++ sepJoin sep (y :: ys) := rfl

theorem mem_sepJoin_substr {sep x : List Char} {l : List (List Char)} (h : x ∈ l) :
    x <:+: sepJoin sep l := by
  induction l with
  | nil => simp at h
  | cons y ys ih =>
    rcases List.mem_cons.mp h with rfl | h'
    · cases ys with
      | nil => exact List.infix_refl _
      | cons z zs =>
        rw [sepJoin_cons₂, List.append_assoc]
        exact (List.prefix_append x _).isInfix
    · cases ys with
      | nil => simp at h'
      | cons z zs =>
        rw [sepJoin_cons₂]
        exact (ih h').trans (List.suffix_append _ _).isInfix

/-- Every suggestion is a substring of the composed error message. -/
theorem suggestion_in_msg {lp x : List Char} {suggestions : List (List Char)}
    (h : x ∈ suggestions) : strOccurs x (notFoundMsg lp suggestions) = true := by
  rw [strOccurs_eq_true_iff]
  unfold notFoundMsg
  rw [if_pos (by rintro rfl; simp at h)]
  refine (@mem_sepJoin_substr (", ".data) x suggestions h).trans ?_
  exact ((List.suffix_append _ _).trans (List.suffix_append _ _)).isInfix

/-- The Dropbox-API validator's half of the suggestion property: when the
requested library path's `metadata.db` is absent, it returns an invalid
result whose error message lists every successfully probed top-level
folder containing a `metadata.db` (as `"/<folder>"`). -/
theorem validate_library_path_suggests (r : Remote) (library_path : List Char)
    (entries : List (List Char × Bool)) (f : List Char) (sz : Nat)
    (habsent : r.metadata (normalizeLibPath library_path ++ "/metadata.db".data)
      = Probe.absent)
    (hlist : r.listRoot = some entries)
    (hmem : (f, true) ∈ entries)
    (hfound : r.metadata ('/' :: f ++ "/metadata.db".data) = Probe.found sz) :
    ∃ msg, validate_library_path r library_path = Except.ok (VResult.invalid msg) ∧
      strOccurs ('/' :: f) msg = true := by
  refine ⟨notFoundMsg (normalizeLibPath library_path) (suggestionsOf r), ?_, ?_⟩
  · simp only [validate_library_path, habsent]
  · apply suggestion_in_msg
    unfold suggestionsOf
    rw [hlist]
    apply List.mem_filterMap.mpr
    refine ⟨f, ?_, ?_⟩
    · apply List.mem_map.mpr
      exact ⟨(f, true), List.mem_filter.mpr ⟨hmem, rfl⟩, rfl⟩
    · rw [hfound]

/-- Example remote for **C6**: exactly one top-level folder holds a
`metadata.db`. -/
def remoteOneLib : Remote :=
  { metadata := fun p =>
      if p = "/Calibre Library/metadata.db".data then Probe.found 5 else Probe.absent,
    listRoot := some [("Calibre Library".data, true), ("Photos".data, false)] }

/-! ### LocalStorageAPI.validate_library_path (src/local_storage_api.py 45–92)

The claim also cites the filesystem-backed validator.  Its filesystem
facts (`os.path.exists`, `os.path.isdir`, `os.path.getsize`,
`os.listdir(base_path)`) are the inputs.  Unlike the Dropbox variant, it
first checks that the requested folder itself exists and returns a plain
"Library path not found" — with no suggestion scan — when it does not;
the suggestion scan runs only when the folder exists but holds no
`metadata.db`.  A `ValueError` from `_resolve_path` is caught and returned
as the invalid result's message. -/

structure LocalStore where
  pathExists : List Char → Bool
  isDir : List Char → Bool
  size : List Char → Nat
  /-- `os.listdir(self.base_path)`. -/
  rootEntries : List (List Char)

/-- The suggestion loop of the filesystem validator (lines 67–72). -/
def localSuggestions (lfs : LocalStore) (base_path : List Char) : List (List Char) :=
  lfs.rootEntries.filterMap (fun entry =>
    if lfs.isDir (pathJoin base_path entry) &&
        lfs.pathExists (pathJoin (pathJoin base_path entry) ("metadata.db".data)) then
      some ('/' :: entry)
    else none)

def local_validate_library_path (lfs : LocalStore) (base_path library_path : List Char) :
    VResult :=
  match resolve_path base_path library_path with
  | Except.error e => VResult.invalid e
  | Except.ok resolved =>
    if !lfs.pathExists resolved then
      VResult.invalid ("Library path not found: ".data ++ library_path)
    else if !lfs.pathExists (pathJoin resolved ("metadata.db".data)) then
      VResult.invalid (notFoundMsg library_path (localSuggestions lfs base_path))
    else
      VResult.valid (lfs.size (pathJoin resolved ("metadata.db".data)))

/-- Example local store: root `/data` with exactly one folder containing a
`metadata.db` (`Calibre Library`), one folder without (`Empty`), and
nothing else. -/
def lsOneLib : LocalStore :=
  { pathExists := fun p =>
      (p == "/data/Calibre Library".data) ||
        (p == "/data/Calibre Library/metadata.db".data) ||
        (p == "/data/Empty".data),
    isDir := fun p =>
      (p == "/data/Calibre Library".data) || (p == "/data/Empty".data),
    size := fun _ => 0,
    rootEntries := ["Calibre Library".data, "Empty".data] }

/-- Counterexample for **C6** as stated: against the filesystem-backed
store `lsOneLib` — whose top level contains exactly one folder with a
`metadata.db` — validating the nonexistent sibling path `/Books` returns
the plain "Library path not found" message: the validator short-circuits
at the folder-existence check, never runs the suggestion scan, and the
one library folder is not mentioned. -/
theorem local_validate_nonexistent_ce :
    local_validate_library_path lsOneLib ("/data".data) ("/Books".data)
      = VResult.invalid ("Library path not found: ".data ++ "/Books".data) ∧
    strOccurs ('/' :: "Calibre Library".data)
      ("Library path not found: ".data ++ "/Books".data) = false :=
  ⟨rfl, by decide⟩

/-- **C6** (amended): for the Dropbox-API validator the claim holds as
stated — when the requested path's `metadata.db` is absent, the invalid
result's message lists every successfully probed top-level folder
containing a `metadata.db`, the spec's single folder included.  For the
filesystem validator the same holds only when the requested path itself
exists but lacks `metadata.db`; a request for a nonexistent path returns
`"Library path not found: <path>"` with no suggestions. -/
theorem validator_suggestions_amended
    (r : Remote) (library_path : List Char)
    (entries : List (List Char × Bool)) (f : List Char) (sz : Nat)
    (lfs : LocalStore) (base_path : List Char)
    (lp2 resolved2 f2 : List Char) (lp3 resolved3 : List Char) :
    (r.metadata (normalizeLibPath library_path ++ "/metadata.db".data) = Probe.absent →
      r.listRoot = some entries → (f, true) ∈ entries →
      r.metadata ('/' :: f ++ "/metadata.db".data) = Probe.found sz →
      ∃ msg, validate_library_path r library_path = Except.ok (VResult.invalid msg) ∧
        strOccurs ('/' :: f) msg = true) ∧
    (resolve_path base_path lp2 = Except.ok resolved2 →
      lfs.pathExists resolved2 = true →
      lfs.pathExists (pathJoin resolved2 ("metadata.db".data)) = false →
      f2 ∈ lfs.rootEntries →
      lfs.isDir (pathJoin base_path f2) = true →
      lfs.pathExists (pathJoin (pathJoin base_path f2) ("metadata.db".data)) = true →
      ∃ msg, local_validate_library_path lfs base_path lp2 = VResult.invalid msg ∧
        strOccurs ('/' :: f2) msg = true) ∧
    (resolve_path base_path lp3 = Except.ok resolved3 →
      lfs.pathExists resolved3 = false →
      local_validate_library_path lfs base_path lp3
        = VResult.invalid ("Library path not found: ".data ++ lp3)) := by
  refine ⟨?_, ?_, ?_⟩
  · intro habsent hlist hmem hfound
    exact validate_library_path_suggests r library_path entries f sz
      habsent hlist hmem hfound
  · intro hres hex hmeta hf2 hdir hsub
    refine ⟨notFoundMsg lp2 (localSuggestions lfs base_path), ?_, ?_⟩
    · unfold local_validate_library_path
      rw [hres]
      show (if (!lfs.pathExists resolved2) = true then
          VResult.invalid ("Library path not found: ".data ++ lp2)
        else if (!lfs.pathExists (pathJoin resolved2 ("metadata.db".data))) = true then
          VResult.invalid (notFoundMsg lp2 (localSuggestions lfs base_path))
        else VResult.valid (lfs.size (pathJoin resolved2 ("metadata.db".data))))
          = VResult.invalid (notFoundMsg lp2 (localSuggestions lfs base_path))
      rw [if_neg (by simp [hex]), if_pos (by simp [hmeta])]
    · apply suggestion_in_msg
      unfold localSuggestions
      apply List.mem_filterMap.mpr
      refine ⟨f2, hf2, ?_⟩
      simp [hdir, hsub]
  · intro hres hex
    unfold local_validate_library_path
    rw [hres]
    show (if (!lfs.pathExists resolved3) = true then
        VResult.invalid ("Library path not found: ".data ++ lp3)
      else if (!lfs.pathExists (pathJoin resolved3 ("metadata.db".data))) = true then
        VResult.invalid (notFoundMsg lp3 (localSuggestions lfs base_path))
      else VResult.valid (lfs.size (pathJoin resolved3 ("metadata.db".data))))
        = VResult.invalid ("Library path not found: ".data ++ lp3)
    rw [if_pos (by simp [hex])]

/-- Witness for **C6** (amended), discharging all three parts: the Dropbox
validator on the nonexistent sibling `/Books` suggests
`/Calibre Library`; the filesystem validator on the existing-but-empty
folder `/Empty` also suggests `/Calibre Library`; and on the nonexistent
`/Missing` it returns the plain not-found message. -/
theorem validator_suggestions_amended_witness :
    (∃ msg, validate_library_path remoteOneLib ("/Books".data)
        = Except.ok (VResult.invalid msg) ∧
      strOccurs ('/' :: "Calibre Library".data) msg = true) ∧
    (∃ msg, local_validate_library_path lsOneLib ("/data".data) ("/Empty".data)
        = VResult.invalid msg ∧
      strOccurs ('/' :: "Calibre Library".data) msg = true) ∧
    local_validate_library_path lsOneLib ("/data".data) ("/Missing".data)
      = VResult.invalid ("Library path not found: ".data ++ "/Missing".data) :=
  have h := validator_suggestions_amended remoteOneLib ("/Books".data)
    [("Calibre Library".data, true), ("Photos".data, false)] ("Calibre Library".data) 5
    lsOneLib ("/data".data)
    ("/Empty".data) ("/data/Empty".data) ("Calibre Library".data)
    ("/Missing".data) ("/data/Missing".data)
  ⟨h.1 (by decide) rfl (by decide) (by decide),
   h.2.1 rfl (by decide) (by decide) (by decide) (by decide) (by decide),
   h.2.2 rfl (by decide)⟩

/-- **C8**: once the primary probe reports the library's `metadata.db`
absent, the validator returns the invalid report for *every* remote —
including remotes whose root listing or folder probes fault — so
suggestion-scan faults never propagate. -/
theorem validate_library_path_swallows_faults (r : Remote) (library_path : List Char)
    (habsent : r.metadata (normalizeLibPath library_path ++ "/metadata.db".data)
      = Probe.absent) :
    validate_library_path r library_path
      = Except.ok (VResult.invalid
          (notFoundMsg (normalizeLibPath library_path) (suggestionsOf r))) := by
  simp only [validate_library_path, habsent]

/-- Example remote for **C8**: the primary probe reports absent and every
other interaction faults (root listing included). -/
def remoteFaulty : Remote :=
  { metadata := fun p =>
      if p = "/Books/metadata.db".data then Probe.absent else Probe.fault,
    listRoot := none }

/-- Witness for **C8**: the all-faulting remote still produces the primary
invalid report (with no suggestions), not a propagated fault. -/
theorem validate_library_path_swallows_faults_witness :
    validate_library_path remoteFaulty ("/Books".data)
      = Except.ok (VResult.invalid
          (notFoundMsg (normalizeLibPath ("/Books".data)) (suggestionsOf remoteFaulty))) :=
  validate_library_path_swallows_faults remoteFaulty ("/Books".data) (by decide)

/-! ## CalibreDB (src/db.py)

The Calibre schema's tables become list-backed relations; the SQL queries
are embedded by their relational semantics.  `LEFT JOIN` keeps every left
row, pairing it with `none` when no right row matches; `GROUP BY b.id`
over join output whose left side enumerates the (id-distinct) `books`
rows yields one group per book; `GROUP_CONCAT(x, sep)` concatenates the
non-NULL values of a group; a non-aggregated column under `GROUP BY` takes
its value from one row of the group (SQLite leaves which one unspecified —
the embedding takes the first join row). -/

structure Book where
  id : Nat
  title : String
  sort : String
  path : String
  has_cover : Bool
  timestamp : String
  pubdate : String
  series_index : Int
  uuid : String
  deriving DecidableEq, Repr

structure Author where
  id : Nat
  name : String
  sort : String
  deriving DecidableEq, Repr

structure BALink where
  book : Nat
  author : Nat
  deriving DecidableEq, Repr

structure SeriesT where
  id : Nat
  name : String
  sort : String
  deriving DecidableEq, Repr

structure BSLink where
  book : Nat
  series : Nat
  deriving DecidableEq, Repr

structure RatingT where
  id : Nat
  rating : Nat
  deriving DecidableEq, Repr

structure BRLink where
  book : Nat
  rating : Nat
  deriving DecidableEq, Repr

structure PublisherT where
  id : Nat
  name : String
  deriving DecidableEq, Repr

structure BPLink where
  book : Nat
  publisher : Nat
  deriving DecidableEq, Repr

structure TagT where
  id : Nat
  name : String
  deriving DecidableEq, Repr

structure BTLink where
  book : Nat
  tag : Nat
  deriving DecidableEq, Repr

structure LanguageT where
  id : Nat
  lang_code : String
  deriving DecidableEq, Repr

/-- `books_languages_link`: its `lang_code` column holds the id of a
`languages` row (the join in the source is `ON l.id = bll.lang_code`). -/
structure BLLink where
  book : Nat
  lang_code : Nat
  deriving DecidableEq, Repr

structure CommentT where
  book : Nat
  text : String
  deriving DecidableEq, Repr

structure DataT where
  book : Nat
  format : String
  uncompressed_size : Nat
  name : String
  deriving DecidableEq, Repr

structure IdentifierT where
  book : Nat
  type : String
  val : String
  deriving DecidableEq, Repr

structure DB where
  books : List Book
  authors : List Author
  books_authors_link : List BALink
  series : List SeriesT
  books_series_link : List BSLink
  ratings : List RatingT
  books_ratings_link : List BRLink
  publishers : List PublisherT
  books_publishers_link : List BPLink
  tags : List TagT
  books_tags_link : List BTLink
  languages : List LanguageT
  books_languages_link : List BLLink
  comments : List CommentT
  data : List DataT
  identifiers : List IdentifierT

/-! ### SQLite `LIKE`

Default SQLite `LIKE`: `%` matches any sequence, `_` any single character,
plain characters match up to ASCII case folding (Lean's `Char.toLower` is
exactly ASCII case folding).  `NULL LIKE pattern` is not true, handled at
the call sites. -/

def likeMatch : List Char → List Char → Bool
  | [], s => s.isEmpty
  | c :: ps, s =>
    if c = '%' then s.tails.any (fun t => likeMatch ps t)
    else
      match s with
      | [] => false
      | x :: t => if c = '_' then likeMatch ps t else (c.toLower == x.toLower) && likeMatch ps t

/-- The wildcard-wrapped pattern `f"%{search_term}%"`. -/
def likePattern (term : String) : List Char := '%' :: (term.data ++ ['%'])

def sqlLike (pat : List Char) (s : String) : Bool := likeMatch pat s.data

/-! ### Join building blocks -/

/-- A `LEFT JOIN`'s right side for one left row: the matching rows, or a
single NULL row when none match. -/
def leftOpt {α : Type} (l : List α) : List (Option α) :=
  if l.isEmpty then [none] else l.map some

def balOf (db : DB) (b : Book) : List BALink :=
  db.books_authors_link.filter (fun l => l.book == b.id)

def authorsOfLink (db : DB) (l : BALink) : List Author :=
  db.authors.filter (fun a => a.id == l.author)

/-- `books LEFT JOIN books_authors_link ON b.id = bal.book`. -/
def joinBA (db : DB) : List (Book × Option BALink) :=
  db.books.flatMap (fun b =>
    if (balOf db b).isEmpty then [(b, none)]
    else (balOf db b).map (fun l => (b, some l)))

/-- `... LEFT JOIN authors a ON bal.author = a.id`. -/
def joinBAA (db : DB) : List (Book × Option Author) :=
  (joinBA db).flatMap (fun r =>
    match r.2 with
    | none => [(r.1, none)]
    | some l =>
      if (authorsOfLink db l).isEmpty then [(r.1, none)]
      else (authorsOfLink db l).map (fun a => (r.1, some a)))

/-- `WHERE b.title LIKE ? OR a.name LIKE ?` on a join row (a NULL author
name fails the `LIKE`). -/
def whereTitleOrAuthor (pat : List Char) (r : Book × Option Author) : Bool :=
  sqlLike pat r.1.title ||
    (match r.2 with
     | some a => sqlLike pat a.name
     | none => false)

/-- The search count query: `SELECT COUNT(DISTINCT b.id) FROM books LEFT
JOIN books_authors_link LEFT JOIN authors WHERE title LIKE ? OR name LIKE ?`. -/
def search_total (db : DB) (term : String) : Nat :=
  ((((joinBAA db).filter (whereTitleOrAuthor (likePattern term))).map
    (fun r => r.1.id)).dedup).length

/-- The authors reachable from a book through `books_authors_link`. -/
def linkedAuthors (db : DB) (b : Book) : List Author :=
  (balOf db b).flatMap (authorsOfLink db)

/-- A book satisfies the search `WHERE` clause through some of its join
rows: title matches, or some linked author's name matches. -/
def matchesSql (db : DB) (pat : List Char) (b : Book) : Bool :=
  sqlLike pat b.title || (linkedAuthors db b).any (fun a => sqlLike pat a.name)

/-! ### Row assembly for the paginated queries -/

/-- The per-book variable parts of the series/ratings joins:
`LEFT JOIN books_series_link LEFT JOIN series` composite values. -/
def seriesOpts (db : DB) (b : Book) : List (Option SeriesT) :=
  let ls := db.books_series_link.filter (fun l => l.book == b.id)
  if ls.isEmpty then [none]
  else ls.flatMap (fun l => leftOpt (db.series.filter (fun s => s.id == l.series)))

def ratingOpts (db : DB) (b : Book) : List (Option RatingT) :=
  let ls := db.books_ratings_link.filter (fun l => l.book == b.id)
  if ls.isEmpty then [none]
  else ls.flatMap (fun l => leftOpt (db.ratings.filter (fun s => s.id == l.rating)))

def authorOpts (db : DB) (b : Book) : List (Option Author) :=
  let ls := balOf db b
  if ls.isEmpty then [none]
  else ls.flatMap (fun l => leftOpt (authorsOfLink db l))

/-- One book's group of join rows in the listing/search queries, in the
join nesting order of the SQL (authors outermost, then series, then
ratings). -/
def rowCombos (db : DB) (b : Book) :
    List (Option Author × Option SeriesT × Option RatingT) :=
  (authorOpts db b).flatMap (fun a =>
    (seriesOpts db b).flatMap (fun s =>
      (ratingOpts db b).map (fun r => (a, s, r))))

def strJoin (sep : String) : List String → String
  | [] => ""
  | [x] => x
  | x :: xs => x ++ sep ++ strJoin sep xs

/-- `GROUP_CONCAT(x, sep)`: concatenate the group's non-NULL values; NULL
when there are none. -/
def groupConcat (sep : String) (vals : List (Option String)) : Option String :=
  match vals.filterMap id with
  | [] => none
  | v :: vs => some (strJoin sep (v :: vs))

structure BookRow where
  id : Nat
  title : String
  path : String
  has_cover : Bool
  timestamp : String
  pubdate : String
  series_index : Int
  authors : Option String
  series : Option String
  rating : Option Nat
  deriving DecidableEq, Repr

/-- The `GROUP BY b.id` output row of the listing query for one book. -/
def bookRowOf (db : DB) (b : Book) : BookRow :=
  let combos := rowCombos db b
  { id := b.id, title := b.title, path := b.path, has_cover := b.has_cover,
    timestamp := b.timestamp, pubdate := b.pubdate, series_index := b.series_index,
    authors := groupConcat " & " (combos.map (fun c => c.1.map Author.name)),
    series := (combos.head?.bind (fun c => c.2.1)).map SeriesT.name,
    rating := (combos.head?.bind (fun c => c.2.2)).map RatingT.rating }

/-! ### `get_books` (lines 27–75) and `search_books` (77–135) -/

def bookKeyLe (a b : Book) : Prop := a.sort ≤ b.sort

instance : DecidableRel bookKeyLe :=
  fun a b => (inferInstance : Decidable (a.sort ≤ b.sort))

instance : IsTotal Book bookKeyLe := ⟨fun a b => le_total a.sort b.sort⟩

instance : IsTrans Book bookKeyLe := ⟨fun _ _ _ h₁ h₂ => le_trans h₁ h₂⟩

/-- `ORDER BY b.sort` (SQLite leaves the order of equal keys unspecified;
the embedding fixes a stable sort). -/
def sortedBooks (db : DB) : List Book := List.insertionSort bookKeyLe db.books

/-- `CalibreDB.get_books`: unfiltered total, plus the grouped/ordered page
window `LIMIT per_page OFFSET (page-1)*per_page`. -/
def get_books (db : DB) (page per_page : Nat) : List BookRow × Nat :=
  let offset := (page - 1) * per_page
  let rows := (((sortedBooks db).drop offset).take per_page).map (bookRowOf db)
  (rows, db.books.length)

/-- `search_books`'s count query text (db.py lines 96–102, line breaks
collapsed to single spaces): legal SQL (its DISTINCT aggregate has one
argument). -/
def searchCountQuery : String :=
  "SELECT COUNT(DISTINCT b.id) as count FROM books b LEFT JOIN books_authors_link bal ON b.id = bal.book LEFT JOIN authors a ON bal.author = a.id WHERE b.title LIKE ? OR a.name LIKE ?"

/-- `search_books`'s page query text (db.py lines 107–130, line breaks
collapsed): its `GROUP_CONCAT(DISTINCT a.name, \x27 & \x27)` is a
two-argument DISTINCT aggregate. -/
def searchPageQuery : String :=
  "SELECT DISTINCT b.id, b.title, b.path, b.has_cover, b.timestamp, b.pubdate, b.series_index, GROUP_CONCAT(DISTINCT a.name, \x27 & \x27) as authors, s.name as series, r.rating FROM books b LEFT JOIN books_authors_link bal ON b.id = bal.book LEFT JOIN authors a ON bal.author = a.id LEFT JOIN books_series_link bsl ON b.id = bsl.book LEFT JOIN series s ON bsl.series = s.id LEFT JOIN books_ratings_link brl ON b.id = brl.book LEFT JOIN ratings r ON brl.rating = r.id WHERE b.title LIKE ? OR a.name LIKE ? GROUP BY b.id ORDER BY b.sort LIMIT ? OFFSET ?"

/-- The text after the first occurrence of `pat`, if any. -/
def afterFirst (pat : List Char) : List Char → Option (List Char)
  | [] => if pat.isEmpty then some [] else none
  | c :: cs =>
    if pat.isPrefixOf (c :: cs) then some ((c :: cs).drop pat.length)
    else afterFirst pat cs

/-- SQLite's prepare-time rule "DISTINCT aggregates must have exactly one
argument", as a syntactic check adequate for this repository's statement
texts: an aggregate call `f(DISTINCT ...)` has a second argument exactly
when a `,` occurs between `(DISTINCT ` and the closing `)` (no statement
in db.py has a comma or a parenthesis inside the aggregate's first
argument).  `COUNT(DISTINCT b.id)` passes; `GROUP_CONCAT(DISTINCT a.name,
\x27 & \x27)` does not. -/
def hasMultiArgDistinctAgg (s : String) : Bool :=
  match afterFirst ("(DISTINCT ".data) s.data with
  | none => false
  | some rest => (rest.takeWhile (fun c => !(c == ')'))).contains ','

/-- `cursor.execute`'s first step: SQLite prepares the statement and
raises `sqlite3.OperationalError` on a multi-argument DISTINCT
aggregate. -/
def prepareStmt (s : String) : Except String Unit :=
  if hasMultiArgDistinctAgg s then
    Except.error "DISTINCT aggregates must have exactly one argument"
  else Except.ok ()

/-- `CalibreDB.search_books`: the count query (legal SQL) executes first
and computes the total; `cursor.execute` on the page query then fails at
prepare time, because `GROUP_CONCAT(DISTINCT a.name, \x27 & \x27)` is a
two-argument DISTINCT aggregate, so the function raises and returns
nothing — the computed total is lost in the raise.  The `Except.ok`
branch is not reached for this statement text (SQLite assigns no row
semantics to a statement that does not prepare). -/
def search_books (db : DB) (term : String) (page per_page : Nat) :
    Except String (List BookRow × Nat) :=
  let total := search_total db term
  match prepareStmt searchPageQuery with
  | Except.error e => Except.error e
  | Except.ok _ => Except.ok ([], total)

/-! ### `get_book_detail` (lines 137–227) -/

/-- The value a `fetchone` on a left-join product sees for one joined
table: the first composite value (each `...Opts` list is nonempty). -/
def firstOpt {α : Type} (l : List (Option α)) : Option α := l.head?.join

def publisherOpts (db : DB) (b : Book) : List (Option PublisherT) :=
  let ls := db.books_publishers_link.filter (fun l => l.book == b.id)
  if ls.isEmpty then [none]
  else ls.flatMap (fun l => leftOpt (db.publishers.filter (fun s => s.id == l.publisher)))

def commentOpts (db : DB) (b : Book) : List (Option CommentT) :=
  leftOpt (db.comments.filter (fun c => c.book == b.id))

/-- `SELECT a.name FROM authors a JOIN books_authors_link bal ON a.id =
bal.author WHERE bal.book = ?` (iteration order of the embedding: the
`authors` table outermost). -/
def authorNamesOf (db : DB) (bid : Nat) : List String :=
  db.authors.flatMap (fun a =>
    (db.books_authors_link.filter (fun l => l.author == a.id && l.book == bid)).map
      (fun _ => a.name))

def tagNamesOf (db : DB) (bid : Nat) : List String :=
  db.tags.flatMap (fun t =>
    (db.books_tags_link.filter (fun l => l.tag == t.id && l.book == bid)).map
      (fun _ => t.name))

def langCodesOf (db : DB) (bid : Nat) : List String :=
  db.languages.flatMap (fun lg =>
    (db.books_languages_link.filter (fun l => l.lang_code == lg.id && l.book == bid)).map
      (fun _ => lg.lang_code))

/-- `SELECT format, uncompressed_size, name FROM data WHERE book = ?`. -/
def formatsOf (db : DB) (bid : Nat) : List (String × Nat × String) :=
  (db.data.filter (fun d => d.book == bid)).map
    (fun d => (d.format, d.uncompressed_size, d.name))

/-- `SELECT type, val FROM identifiers WHERE book = ?`; the Python caller
folds these rows into a dict keyed by `type` (later rows overwrite). -/
def identifiersOf (db : DB) (bid : Nat) : List (String × String) :=
  (db.identifiers.filter (fun i => i.book == bid)).map (fun i => (i.type, i.val))

structure BookDetail where
  id : Nat
  title : String
  path : String
  has_cover : Bool
  timestamp : String
  pubdate : String
  series_index : Int
  uuid : String
  series : Option String
  rating : Option Nat
  publisher : Option String
  comments : Option String
  authors : List String
  tags : List String
  languages : List String
  formats : List (String × Nat × String)
  identifiers : List (String × String)
  deriving DecidableEq, Repr

/-- `CalibreDB.get_book_detail`: `None` when the primary query finds no
row (the `WHERE b.id = ?` filter over `books` is empty), otherwise the
composite record of the first primary-join row plus the five sub-queries. -/
def get_book_detail (db : DB) (bid : Nat) : Option BookDetail :=
  match db.books.find? (fun b => b.id == bid) with
  | none => none
  | some b =>
    some
      { id := b.id, title := b.title, path := b.path, has_cover := b.has_cover,
        timestamp := b.timestamp, pubdate := b.pubdate,
        series_index := b.series_index, uuid := b.uuid,
        series := (firstOpt (seriesOpts db b)).map SeriesT.name,
        rating := (firstOpt (ratingOpts db b)).map RatingT.rating,
        publisher := (firstOpt (publisherOpts db b)).map PublisherT.name,
        comments := (firstOpt (commentOpts db b)).map CommentT.text,
        authors := authorNamesOf db bid,
        tags := tagNamesOf db bid,
        languages := langCodesOf db bid,
        formats := formatsOf db bid,
        identifiers := identifiersOf db bid }

/-! ### Flat enumerations (lines 229–248) -/

def authorSortLe (a b : Author) : Prop := a.sort ≤ b.sort

instance : DecidableRel authorSortLe :=
  fun a b => (inferInstance : Decidable (a.sort ≤ b.sort))

def get_authors (db : DB) : List (Nat × String) :=
  (List.insertionSort authorSortLe db.authors).map (fun a => (a.id, a.name))

def tagNameLe (a b : TagT) : Prop := a.name ≤ b.name

instance : DecidableRel tagNameLe :=
  fun a b => (inferInstance : Decidable (a.name ≤ b.name))

def get_tags (db : DB) : List (Nat × String) :=
  (List.insertionSort tagNameLe db.tags).map (fun t => (t.id, t.name))

def seriesSortLe (a b : SeriesT) : Prop := a.sort ≤ b.sort

instance : DecidableRel seriesSortLe :=
  fun a b => (inferInstance : Decidable (a.sort ≤ b.sort))

def get_series (db : DB) : List (Nat × String) :=
  (List.insertionSort seriesSortLe db.series).map (fun s => (s.id, s.name))

/-! ### Example database shared by the witnesses -/

def bkAlpha : Book :=
  { id := 1, title := "Alpha Test Book", sort := "Alpha Test Book", path := "a/p",
    has_cover := true, timestamp := "2024-01-01", pubdate := "2020-01-01",
    series_index := 1, uuid := "u1" }

def bkBeta : Book :=
  { id := 2, title := "Beta", sort := "Beta", path := "b/p",
    has_cover := false, timestamp := "2024-01-02", pubdate := "2021-01-01",
    series_index := 1, uuid := "u2" }

def auSmith : Author := { id := 7, name := "John Smith", sort := "Smith, John" }

def exampleDB : DB :=
  { books := [bkBeta, bkAlpha], authors := [auSmith],
    books_authors_link := [{ book := 1, author := 7 }],
    series := [], books_series_link := [], ratings := [], books_ratings_link := [],
    publishers := [], books_publishers_link := [],
    tags := [{ id := 3, name := "fiction" }],
    books_tags_link := [{ book := 1, tag := 3 }],
    languages := [], books_languages_link := [], comments := [],
    data := [], identifiers := [] }

/-! ### Membership structure of the search count's join pipeline -/

theorem mem_joinBA {db : DB} {b : Book} {x : Option BALink} (h : (b, x) ∈ joinBA db) :
    b ∈ db.books ∧ ∀ l, x = some l → l ∈ balOf db b := by
  obtain ⟨b', hb', hmem⟩ := List.mem_flatMap.mp h
  by_cases hl : (balOf db b').isEmpty
  · rw [if_pos hl] at hmem
    simp only [List.mem_singleton, Prod.mk.injEq] at hmem
    obtain ⟨rfl, rfl⟩ := hmem
    exact ⟨hb', fun l hl' => by cases hl'⟩
  · rw [if_neg hl] at hmem
    obtain ⟨l, hlmem, heq⟩ := List.mem_map.mp hmem
    simp only [Prod.mk.injEq] at heq
    obtain ⟨rfl, rfl⟩ := heq
    exact ⟨hb', fun l' hx => by cases hx; exact hlmem⟩

theorem joinBA_total {db : DB} {b : Book} (hb : b ∈ db.books) :
    ∃ x, (b, x) ∈ joinBA db := by
  by_cases hl : (balOf db b).isEmpty
  · exact ⟨none, List.mem_flatMap.mpr ⟨b, hb, by rw [if_pos hl]; simp⟩⟩
  · have hne : balOf db b ≠ [] := fun hnil => hl (by rw [hnil]; rfl)
    obtain ⟨l, hlm⟩ := List.exists_mem_of_ne_nil _ hne
    exact ⟨some l, List.mem_flatMap.mpr
      ⟨b, hb, by rw [if_neg hl]; exact List.mem_map.mpr ⟨l, hlm, rfl⟩⟩⟩

theorem joinBA_of_link {db : DB} {b : Book} {l : BALink}
    (hb : b ∈ db.books) (hl : l ∈ balOf db b) : (b, some l) ∈ joinBA db := by
  have hne : (balOf db b).isEmpty = false := by
    simp [List.isEmpty_iff, List.ne_nil_of_mem hl]
  exact List.mem_flatMap.mpr
    ⟨b, hb, by rw [if_neg (by simp [hne])]; exact List.mem_map.mpr ⟨l, hl, rfl⟩⟩

theorem mem_joinBAA {db : DB} {b : Book} {oa : Option Author} (h : (b, oa) ∈ joinBAA db) :
    b ∈ db.books ∧ ∀ a, oa = some a → a ∈ linkedAuthors db b := by
  obtain ⟨⟨b', x⟩, hr, hmem⟩ := List.mem_flatMap.mp h
  obtain ⟨hb', hx⟩ := mem_joinBA hr
  cases x with
  | none =>
    have hmem' : (b, oa) ∈ [((b' : Book), (none : Option Author))] := hmem
    simp only [List.mem_singleton, Prod.mk.injEq] at hmem'
    obtain ⟨rfl, rfl⟩ := hmem'
    exact ⟨hb', fun a ha => by cases ha⟩
  | some l =>
    have hlb : l ∈ balOf db b' := hx l rfl
    have hmem' : (b, oa) ∈
        (if (authorsOfLink db l).isEmpty then [((b' : Book), (none : Option Author))]
         else (authorsOfLink db l).map (fun a => (b', some a))) := hmem
    by_cases he : (authorsOfLink db l).isEmpty
    · rw [if_pos he] at hmem'
      simp only [List.mem_singleton, Prod.mk.injEq] at hmem'
      obtain ⟨rfl, rfl⟩ := hmem'
      exact ⟨hb', fun a ha => by cases ha⟩
    · rw [if_neg he] at hmem'
      obtain ⟨a, ham, heq⟩ := List.mem_map.mp hmem'
      simp only [Prod.mk.injEq] at heq
      obtain ⟨rfl, rfl⟩ := heq
      refine ⟨hb', fun a' ha' => ?_⟩
      cases ha'
      exact List.mem_flatMap.mpr ⟨l, hlb, ham⟩

theorem joinBAA_total {db : DB} {b : Book} (hb : b ∈ db.books) :
    ∃ oa, (b, oa) ∈ joinBAA db := by
  obtain ⟨x, hx⟩ := joinBA_total hb
  cases x with
  | none =>
    refine ⟨none, List.mem_flatMap.mpr ⟨(b, none), hx, ?_⟩⟩
    show (b, (none : Option Author)) ∈ [((b : Book), (none : Option Author))]
    simp
  | some l =>
    by_cases he : (authorsOfLink db l).isEmpty
    · refine ⟨none, List.mem_flatMap.mpr ⟨(b, some l), hx, ?_⟩⟩
      show (b, (none : Option Author)) ∈
        (if (authorsOfLink db l).isEmpty then [((b : Book), (none : Option Author))]
         else (authorsOfLink db l).map (fun a => (b, some a)))
      rw [if_pos he]
      simp
    · have hne : authorsOfLink db l ≠ [] := fun hnil => he (by rw [hnil]; rfl)
      obtain ⟨a, ham⟩ := List.exists_mem_of_ne_nil _ hne
      refine ⟨some a, List.mem_flatMap.mpr ⟨(b, some l), hx, ?_⟩⟩
      show (b, some a) ∈
        (if (authorsOfLink db l).isEmpty then [((b : Book), (none : Option Author))]
         else (authorsOfLink db l).map (fun a => (b, some a)))
      rw [if_neg he]
      exact List.mem_map.mpr ⟨a, ham, rfl⟩

theorem joinBAA_of_author {db : DB} {b : Book} {a : Author}
    (hb : b ∈ db.books) (ha : a ∈ linkedAuthors db b) : (b, some a) ∈ joinBAA db := by
  obtain ⟨l, hlb, ham⟩ := List.mem_flatMap.mp ha
  have hx : (b, some l) ∈ joinBA db := joinBA_of_link hb hlb
  have he : (authorsOfLink db l).isEmpty = false := by
    simp [List.isEmpty_iff, List.ne_nil_of_mem ham]
  refine List.mem_flatMap.mpr ⟨(b, some l), hx, ?_⟩
  show (b, some a) ∈
    (if (authorsOfLink db l).isEmpty then [((b : Book), (none : Option Author))]
     else (authorsOfLink db l).map (fun a => (b, some a)))
  rw [if_neg (by simp [he])]
  exact List.mem_map.mpr ⟨a, ham, rfl⟩

/-- Characterization of the ids surviving the search count's
join-filter-project pipeline. -/
theorem mem_search_ids {db : DB} {pat : List Char} {x : Nat} :
    x ∈ ((joinBAA db).filter (whereTitleOrAuthor pat)).map (fun r => r.1.id) ↔
      ∃ b ∈ db.books, matchesSql db pat b = true ∧ b.id = x := by
  constructor
  · intro hx
    obtain ⟨⟨b, oa⟩, hmem, hid⟩ := List.mem_map.mp hx
    obtain ⟨hj, hw⟩ := List.mem_filter.mp hmem
    obtain ⟨hb, hoa⟩ := mem_joinBAA hj
    refine ⟨b, hb, ?_, hid⟩
    unfold whereTitleOrAuthor at hw
    cases htitle : sqlLike pat b.title with
    | true => exact Bool.or_eq_true_iff.mpr (Or.inl htitle)
    | false =>
      rw [htitle] at hw
      simp only [Bool.false_or] at hw
      cases oa with
      | none => cases hw
      | some a =>
        have ha := hoa a rfl
        exact Bool.or_eq_true_iff.mpr
          (Or.inr (List.any_eq_true.mpr ⟨a, ha, hw⟩))
  · rintro ⟨b, hb, hm, rfl⟩
    rcases Bool.or_eq_true_iff.mp hm with ht | ha
    · obtain ⟨oa, hoa⟩ := joinBAA_total hb
      refine List.mem_map.mpr ⟨(b, oa), List.mem_filter.mpr ⟨hoa, ?_⟩, rfl⟩
      unfold whereTitleOrAuthor
      simp [ht]
    · obtain ⟨a, ham, hla⟩ := List.any_eq_true.mp ha
      refine List.mem_map.mpr
        ⟨(b, some a), List.mem_filter.mpr ⟨joinBAA_of_author hb ham, ?_⟩, rfl⟩
      unfold whereTitleOrAuthor
      simp [hla]

/-- The search count equals the number of books whose title or some linked
author name passes the `LIKE` filter (book ids assumed unique, as they are
for a primary-key column). -/
theorem search_total_eq (db : DB) (term : String)
    (hids : (db.books.map Book.id).Nodup) :
    search_total db term
      = (db.books.filter (matchesSql db (likePattern term))).length := by
  unfold search_total
  rw [← List.card_toFinset]
  have hset : (((joinBAA db).filter (whereTitleOrAuthor (likePattern term))).map
      (fun r => r.1.id)).toFinset
      = ((db.books.filter (matchesSql db (likePattern term))).map Book.id).toFinset := by
    ext x
    simp only [List.mem_toFinset]
    rw [mem_search_ids]
    constructor
    · rintro ⟨b, hb, hm, rfl⟩
      exact List.mem_map.mpr ⟨b, List.mem_filter.mpr ⟨hb, hm⟩, rfl⟩
    · intro hx
      obtain ⟨b, hbf, rfl⟩ := List.mem_map.mp hx
      obtain ⟨hb, hm⟩ := List.mem_filter.mp hbf
      exact ⟨b, hb, hm, rfl⟩
  rw [hset, List.card_toFinset]
  have hsub : List.Sublist
      ((db.books.filter (matchesSql db (likePattern term))).map Book.id)
      (db.books.map Book.id) :=
    (List.filter_sublist _).map _
  have hnodup := hids.sublist hsub
  rw [hnodup.dedup, List.length_map]

/-! ### `LIKE` with a wildcard-free term is case-insensitive substring -/

theorem likeMatch_cons_eq (c : Char) (ps s : List Char) :
    likeMatch (c :: ps) s =
      if c = '%' then s.tails.any (fun t => likeMatch ps t)
      else
        match s with
        | [] => false
        | x :: t =>
          if c = '_' then likeMatch ps t
          else (c.toLower == x.toLower) && likeMatch ps t := rfl

theorem likeMatch_pct {ps s : List Char} :
    likeMatch ('%' :: ps) s = true ↔ ∃ t, t <:+ s ∧ likeMatch ps t = true := by
  rw [likeMatch_cons_eq, if_pos rfl, List.any_eq_true]
  constructor
  · rintro ⟨t, ht, hm⟩
    exact ⟨t, (List.mem_tails _ _).mp ht, hm⟩
  · rintro ⟨t, ht, hm⟩
    exact ⟨t, (List.mem_tails _ _).mpr ht, hm⟩

theorem likeMatch_plain_pct (q : List Char) (hq : ∀ c ∈ q, c ≠ '%' ∧ c ≠ '_') :
    ∀ s : List Char,
      (likeMatch (q ++ ['%']) s = true ↔ (q.map Char.toLower) <+: (s.map Char.toLower)) := by
  induction q with
  | nil =>
    intro s
    simp only [List.nil_append, List.map_nil]
    constructor
    · intro _
      exact List.nil_prefix
    · intro _
      exact likeMatch_pct.mpr ⟨[], List.nil_suffix, rfl⟩
  | cons c q' ih =>
    intro s
    have hc := hq c (List.mem_cons_self c q')
    have hq' : ∀ x ∈ q', x ≠ '%' ∧ x ≠ '_' := fun x hx => hq x (List.mem_cons_of_mem c hx)
    cases s with
    | nil =>
      rw [List.cons_append, likeMatch_cons_eq, if_neg hc.1]
      simp
    | cons x t =>
      rw [List.cons_append, likeMatch_cons_eq, if_neg hc.1]
      show (if c = '_' then likeMatch (q' ++ ['%']) t
        else (c.toLower == x.toLower) && likeMatch (q' ++ ['%']) t) = true ↔ _
      rw [if_neg hc.2]
      simp only [List.map_cons, List.cons_prefix_cons, Bool.and_eq_true, beq_iff_eq]
      exact and_congr Iff.rfl (ih hq' t)

theorem likeWrap_iff (q : List Char) (hq : ∀ c ∈ q, c ≠ '%' ∧ c ≠ '_') (s : List Char) :
    likeMatch ('%' :: (q ++ ['%'])) s = true ↔
      (q.map Char.toLower) <:+: (s.map Char.toLower) := by
  rw [likeMatch_pct]
  constructor
  · rintro ⟨t, hts, hm⟩
    rw [likeMatch_plain_pct q hq t] at hm
    exact List.infix_iff_prefix_suffix.mpr ⟨t.map Char.toLower, hm, hts.map _⟩
  · intro h
    obtain ⟨t', hpre, hsuf⟩ := List.infix_iff_prefix_suffix.mp h
    have hdrop := List.suffix_iff_eq_drop.mp hsuf
    refine ⟨s.drop ((s.map Char.toLower).length - t'.length), List.drop_suffix _ _, ?_⟩
    rw [likeMatch_plain_pct q hq, List.map_drop, ← hdrop]
    exact hpre

/-- Case-insensitive (ASCII-folded) substring containment — the matching
notion in the claim's own words. -/
def containsCI (t s : String) : Bool :=
  strOccurs (t.data.map Char.toLower) (s.data.map Char.toLower)

/-- The claim's matching predicate: the title or some linked author name
contains the term as a case-insensitive substring. -/
def specBookMatches (db : DB) (term : String) (b : Book) : Bool :=
  containsCI term b.title || (linkedAuthors db b).any (fun a => containsCI term a.name)

theorem bool_eq_of_iff {a b : Bool} (h : a = true ↔ b = true) : a = b := by
  cases a <;> cases b <;> simp_all

theorem sqlLike_eq_containsCI {term : String}
    (hterm : ∀ c ∈ term.data, c ≠ '%' ∧ c ≠ '_') (s : String) :
    sqlLike (likePattern term) s = containsCI term s := by
  apply bool_eq_of_iff
  unfold sqlLike likePattern containsCI
  rw [strOccurs_eq_true_iff]
  exact likeWrap_iff term.data hterm s.data

theorem matchesSql_eq_spec {db : DB} {term : String}
    (hterm : ∀ c ∈ term.data, c ≠ '%' ∧ c ≠ '_') (b : Book) :
    matchesSql db (likePattern term) b = specBookMatches db term b := by
  unfold matchesSql specBookMatches
  simp only [sqlLike_eq_containsCI hterm]

/-! ### Claim theorems for the catalog query layer -/

/-- **C4**: the claim (and `search_books`'s own docstring, "Returns:
Tuple of (books list, total count)") describes the intended behavior, but
the page query's `GROUP_CONCAT(DISTINCT a.name, \x27 & \x27)` is a
two-argument DISTINCT aggregate, which SQLite rejects when preparing the
statement.  The count query is legal — only the page query carries the
invalid form — so on every call, against every database and term,
`search_books` computes the total and then raises
`sqlite3.OperationalError: DISTINCT aggregates must have exactly one
argument`, never reporting a total or returning page rows. -/
theorem search_books_always_raises (db : DB) (term : String) (page per_page : Nat) :
    hasMultiArgDistinctAgg searchCountQuery = false ∧
    hasMultiArgDistinctAgg searchPageQuery = true ∧
    search_books db term page per_page
      = Except.error "DISTINCT aggregates must have exactly one argument" :=
  ⟨by decide, by decide, rfl⟩

def ceBook : Book :=
  { id := 1, title := "axb", sort := "axb", path := "", has_cover := false,
    timestamp := "", pubdate := "", series_index := 0, uuid := "" }

def ceDB : DB :=
  { books := [ceBook], authors := [], books_authors_link := [], series := [],
    books_series_link := [], ratings := [], books_ratings_link := [],
    publishers := [], books_publishers_link := [], tags := [],
    books_tags_link := [], languages := [], books_languages_link := [],
    comments := [], data := [], identifiers := [] }

/-- **C5**: `get_books` returns the unfiltered total, at most `per_page`
rows, one row per book id, the rows being the
`LIMIT per_page OFFSET (page-1)*per_page` window of the books sorted by
their sort key (so exactly the first `(page-1)*per_page` books of that
order are skipped, clipped at the catalog's size), and the window is
itself ordered by the sort key. -/
theorem get_books_pagination (db : DB) (page per_page : Nat)
    (hp : 1 ≤ page) (hpp : 1 ≤ per_page)
    (hids : (db.books.map Book.id).Nodup) :
    (get_books db page per_page).2 = db.books.length ∧
    (get_books db page per_page).1.length ≤ per_page ∧
    ((get_books db page per_page).1.map BookRow.id).Nodup ∧
    List.Perm (sortedBooks db) db.books ∧
    List.Sorted bookKeyLe (sortedBooks db) ∧
    (get_books db page per_page).1
      = (((sortedBooks db).drop ((page - 1) * per_page)).take per_page).map
        (bookRowOf db) ∧
    ((sortedBooks db).take ((page - 1) * per_page)).length
      = min ((page - 1) * per_page) db.books.length ∧
    List.Pairwise bookKeyLe
      (((sortedBooks db).drop ((page - 1) * per_page)).take per_page) := by
  have hperm : List.Perm (sortedBooks db) db.books := List.perm_insertionSort _ _
  have hsorted : List.Sorted bookKeyLe (sortedBooks db) :=
    List.sorted_insertionSort _ _
  have hwin : List.Sublist
      (((sortedBooks db).drop ((page - 1) * per_page)).take per_page)
      (sortedBooks db) :=
    (List.take_sublist _ _).trans (List.drop_sublist _ _)
  refine ⟨rfl, ?_, ?_, hperm, hsorted, rfl, ?_, ?_⟩
  · show ((((sortedBooks db).drop ((page - 1) * per_page)).take per_page).map
      (bookRowOf db)).length ≤ per_page
    rw [List.length_map]
    exact List.length_take_le _ _
  · show (((((sortedBooks db).drop ((page - 1) * per_page)).take per_page).map
      (bookRowOf db)).map BookRow.id).Nodup
    rw [List.map_map,
      List.map_congr_left (fun b _ => (rfl : (BookRow.id ∘ bookRowOf db) b = Book.id b))]
    exact (((hperm.map Book.id).nodup_iff).mpr hids).sublist (hwin.map Book.id)
  · rw [List.length_take, hperm.length_eq]
  · exact List.Pairwise.sublist hwin hsorted

/-- Witness for **C5** on the example database (page 1, one row per page:
the alphabetically first book fills the page and one book is left over). -/
theorem get_books_pagination_witness :
    (get_books exampleDB 1 1).2 = exampleDB.books.length ∧
    (get_books exampleDB 1 1).1.length ≤ 1 ∧
    ((get_books exampleDB 1 1).1.map BookRow.id).Nodup ∧
    List.Perm (sortedBooks exampleDB) exampleDB.books ∧
    List.Sorted bookKeyLe (sortedBooks exampleDB) ∧
    (get_books exampleDB 1 1).1
      = (((sortedBooks exampleDB).drop ((1 - 1) * 1)).take 1).map (bookRowOf exampleDB) ∧
    ((sortedBooks exampleDB).take ((1 - 1) * 1)).length
      = min ((1 - 1) * 1) exampleDB.books.length ∧
    List.Pairwise bookKeyLe (((sortedBooks exampleDB).drop ((1 - 1) * 1)).take 1) :=
  get_books_pagination exampleDB 1 1 (by decide) (by decide) (by decide)

/-- **C7**: `get_book_detail` is total — for an id matching no book row it
returns the not-found signal `none` rather than a fault, and for a found
book it returns the composite record whose list-valued fields are exactly
the authors, tags, languages, formats and identifiers sub-query results. -/
theorem get_book_detail_spec (db : DB) (bid : Nat) :
    ((∀ b ∈ db.books, b.id ≠ bid) → get_book_detail db bid = none) ∧
    (∀ b, db.books.find? (fun x => x.id == bid) = some b →
      ∃ d, get_book_detail db bid = some d ∧ d.id = b.id ∧ d.title = b.title ∧
        d.uuid = b.uuid ∧ d.authors = authorNamesOf db bid ∧
        d.tags = tagNamesOf db bid ∧ d.languages = langCodesOf db bid ∧
        d.formats = formatsOf db bid ∧ d.identifiers = identifiersOf db bid) := by
  constructor
  · intro h
    unfold get_book_detail
    rw [List.find?_eq_none.mpr (fun x hx => by simpa using h x hx)]
  · intro b hb
    unfold get_book_detail
    rw [hb]
    exact ⟨_, rfl, rfl, rfl, rfl, rfl, rfl, rfl, rfl, rfl⟩

/-- Witness for **C7**: id 99 matches nothing and yields `none`; id 1
yields the composite record for `bkAlpha`. -/
theorem get_book_detail_spec_witness :
    get_book_detail exampleDB 99 = none ∧
    ∃ d, get_book_detail exampleDB 1 = some d ∧ d.id = bkAlpha.id ∧
      d.title = bkAlpha.title ∧ d.uuid = bkAlpha.uuid ∧
      d.authors = authorNamesOf exampleDB 1 ∧ d.tags = tagNamesOf exampleDB 1 ∧
      d.languages = langCodesOf exampleDB 1 ∧ d.formats = formatsOf exampleDB 1 ∧
      d.identifiers = identifiersOf exampleDB 1 :=
  ⟨(get_book_detail_spec exampleDB 99).1 (by decide),
   (get_book_detail_spec exampleDB 1).2 bkAlpha (by decide)⟩

/-! ## C10: the catalog layer is read-only

The exact SQL texts issued by the six catalog operations, transcribed from
src/db.py with the triple-quoted queries' line breaks and indentation
collapsed to single spaces.  `execStmt` gives statements their SQLite
effect semantics: a `SELECT` leaves the database contents unchanged, any
other statement may rewrite them (`effect`).  `withConnection` is the
`get_connection` context manager: the connection is opened, the body runs,
and the `finally` block closes the connection on both the normal and the
faulting path. -/

def get_books_stmts : List String :=
  ["SELECT COUNT(*) as count FROM books",
   "SELECT b.id, b.title, b.path, b.has_cover, b.timestamp, b.pubdate, b.series_index, GROUP_CONCAT(a.name, \x27 & \x27) as authors, s.name as series, r.rating FROM books b LEFT JOIN books_authors_link bal ON b.id = bal.book LEFT JOIN authors a ON bal.author = a.id LEFT JOIN books_series_link bsl ON b.id = bsl.book LEFT JOIN series s ON bsl.series = s.id LEFT JOIN books_ratings_link brl ON b.id = brl.book LEFT JOIN ratings r ON brl.rating = r.id GROUP BY b.id ORDER BY b.sort LIMIT ? OFFSET ?"]

def search_books_stmts : List String := [searchCountQuery, searchPageQuery]

def get_book_detail_stmts : List String :=
  ["SELECT b.id, b.title, b.path, b.has_cover, b.timestamp, b.pubdate, b.series_index, b.uuid, s.name as series, r.rating, p.name as publisher, c.text as comments FROM books b LEFT JOIN books_series_link bsl ON b.id = bsl.book LEFT JOIN series s ON bsl.series = s.id LEFT JOIN books_ratings_link brl ON b.id = brl.book LEFT JOIN ratings r ON brl.rating = r.id LEFT JOIN books_publishers_link bpl ON b.id = bpl.book LEFT JOIN publishers p ON bpl.publisher = p.id LEFT JOIN comments c ON b.id = c.book WHERE b.id = ?",
   "SELECT a.name FROM authors a JOIN books_authors_link bal ON a.id = bal.author WHERE bal.book = ?",
   "SELECT t.name FROM tags t JOIN books_tags_link btl ON t.id = btl.tag WHERE btl.book = ?",
   "SELECT l.lang_code FROM languages l JOIN books_languages_link bll ON l.id = bll.lang_code WHERE bll.book = ?",
   "SELECT format, uncompressed_size, name FROM data WHERE book = ?",
   "SELECT type, val FROM identifiers WHERE book = ?"]

def get_authors_stmts : List String := ["SELECT id, name FROM authors ORDER BY sort"]

def get_tags_stmts : List String := ["SELECT id, name FROM tags ORDER BY name"]

def get_series_stmts : List String := ["SELECT id, name FROM series ORDER BY sort"]

def allCatalogStmts : List String :=
  get_books_stmts ++ search_books_stmts ++ get_book_detail_stmts ++
    get_authors_stmts ++ get_tags_stmts ++ get_series_stmts

def isSelectStmt (s : String) : Bool :=
  "SELECT".data.isPrefixOf (s.data.dropWhile (fun c => c == ' ' || c == '\n'))

/-- SQLite statement semantics on database contents: `SELECT` reads only;
anything else may rewrite the database (`effect`). -/
def execStmt (d : DB) (s : String) (effect : DB → DB) : DB :=
  if isSelectStmt s then d else effect d

/-- `CalibreDB.get_connection`: open a connection, run the body, and close
the connection in the `finally` block — on the normal and the faulting
path alike.  The flag records that the connection was closed. -/
def withConnection {α : Type} (d : DB) (body : DB → Except String α) :
    Except String α × Bool :=
  match body d with
  | Except.ok a => (Except.ok a, true)
  | Except.error e => (Except.error e, true)

theorem foldl_execStmt_id (effect : DB → DB) :
    ∀ l : List String, (∀ s ∈ l, isSelectStmt s = true) →
      ∀ d : DB, l.foldl (fun acc s => execStmt acc s effect) d = d := by
  intro l
  induction l with
  | nil => intro _ _; rfl
  | cons s ss ih =>
    intro hl d
    rw [List.foldl_cons,
      show execStmt d s effect = d from by
        unfold execStmt; rw [if_pos (hl s (List.mem_cons_self s ss))]]
    exact ih (fun x hx => hl x (List.mem_cons_of_mem s hx)) d

/-- **C10**: every statement issued by the six catalog operations is a
`SELECT`; running any number of them against any database — under
statement semantics where only non-`SELECT` statements can modify the
database — leaves the database contents unchanged; and the scoped
connection is closed on the faulting path as well as the normal one. -/
theorem catalog_queries_read_only :
    (∀ s ∈ allCatalogStmts, isSelectStmt s = true) ∧
    (∀ (d : DB) (effect : DB → DB),
      allCatalogStmts.foldl (fun acc s => execStmt acc s effect) d = d) ∧
    (∀ (α : Type) (d : DB) (body : DB → Except String α),
      (withConnection d body).2 = true) := by
  have hsel : ∀ s ∈ allCatalogStmts, isSelectStmt s = true := by decide
  refine ⟨hsel, ?_, ?_⟩
  · intro d effect
    exact foldl_execStmt_id effect allCatalogStmts hsel d
  · intro α d body
    unfold withConnection
    cases body d <;> rfl

/-- Witness for **C10**: a concrete statement is a `SELECT`; running the
whole catalog workload with a database-clobbering effect leaves the
example database intact; a faulting body still gets its connection
closed. -/
theorem catalog_queries_read_only_witness :
    isSelectStmt "SELECT COUNT(*) as count FROM books" = true ∧
    allCatalogStmts.foldl (fun acc s => execStmt acc s (fun _ => ceDB)) exampleDB
      = exampleDB ∧
    (withConnection exampleDB (fun _ => (Except.error "boom" : Except String Nat))).2
      = true :=
  ⟨catalog_queries_read_only.1 "SELECT COUNT(*) as count FROM books" (by decide),
   catalog_queries_read_only.2.1 exampleDB (fun _ => ceDB),
   catalog_queries_read_only.2.2 Nat exampleDB (fun _ => Except.error "boom")⟩

end Cbdb
